import Mathlib

/-!
Shallow embedding of `monitor.py` (IoT-Image-Monitor): a watchdog handler
that filters image files by extension, tracks in-flight paths in a set,
uploads via a curl subprocess, and moves uploaded files into an archive
directory with collision-avoiding renaming.

Python strings are modelled as `List Char`; the filesystem as the list of
paths that exist; the Python `set` `processing_files` as a `Finset` of
paths.  Path strings are taken verbatim (no `pathlib` normalisation);
`str.lower()` is modelled by `Char.toLower` (ASCII case mapping, which
agrees with Python on the alphabet relevant to the extension allow-list).
External effects (the curl subprocess result, a possible exception raised
by `shutil.move` or by invoking the subprocess) are inputs in an `Env`
record.
-/

namespace Monitor

/-- Python strings, modelled as lists of characters. -/
abbrev Str := List Char

/-- Shorthand for turning a Lean string literal into the model type. -/
def str (s : String) : Str := s.data

/-- Index of the last occurrence of `c` in `l` (Python `str.rfind`,
`none` standing for Python's `-1`). -/
def rfind (c : Char) : Str → Option Nat
  | [] => none
  | a :: as =>
    match rfind c as with
    | some i => some (i + 1)
    | none => if a = c then some 0 else none

/-- The final path component: everything after the last `'/'`
(`os.path.basename`, and `pathlib.PurePath.name` for slash-free tails). -/
def basename (p : Str) : Str :=
  match rfind '/' p with
  | none => p
  | some i => p.drop (i + 1)

/-- `pathlib.PurePath.suffix`: the extension of the final component.  The
last dot must be neither the first nor the last character of the name,
otherwise the suffix is empty (so a dot-file like `.jpg` has no suffix). -/
def pathSuffix (p : Str) : Str :=
  match rfind '.' (basename p) with
  | none => []
  | some i =>
    if 0 < i ∧ i + 1 < (basename p).length then (basename p).drop i else []

/-- Python `str.lower()` (ASCII case mapping). -/
def lower (s : Str) : Str := s.map Char.toLower

/-- The extension allow-list `['.jpg', '.jpeg', '.png']` from
`on_created`. -/
def allowedExts : List Str := [str ".jpg", str ".jpeg", str ".png"]

/-- The `on_created` filename filter:
`file_path.suffix.lower() in ['.jpg', '.jpeg', '.png']`. -/
def isImageFile (p : Str) : Bool := lower (pathSuffix p) ∈ allowedExts

/-! ### Facts about `rfind` and path decomposition -/

theorem rfind_eq_none (c : Char) (l : Str) : rfind c l = none ↔ c ∉ l := by
  induction l with
  | nil => simp [rfind]
  | cons a as ih =>
    simp only [rfind, List.mem_cons]
    cases h : rfind c as with
    | some i =>
      have hmem : c ∈ as := by
        by_contra hc
        rw [← ih] at hc
        rw [h] at hc
        exact Option.noConfusion hc
      show some (i + 1) = none ↔ ¬(c = a ∨ c ∈ as)
      simp [hmem]
    | none =>
      have hni : c ∉ as := ih.mp h
      show (if a = c then some 0 else none) = none ↔ ¬(c = a ∨ c ∈ as)
      by_cases hac : a = c
      · subst hac
        simp
      · have hca : ¬ c = a := fun hh => hac hh.symm
        simp [hac, hca, hni]

theorem rfind_append_cons (c : Char) (xs ys : Str) (h : c ∉ ys) :
    rfind c (xs ++ c :: ys) = some xs.length := by
  induction xs with
  | nil =>
    have hys : rfind c ys = none := (rfind_eq_none c ys).mpr h
    simp [rfind, hys]
  | cons a as ih =>
    show (match rfind c (as ++ c :: ys) with
          | some i => some (i + 1)
          | none => if a = c then some 0 else none) = some (as.length + 1)
    rw [ih]

theorem drop_append_cons {α : Type} (xs ys : List α) (a : α) :
    (xs ++ a :: ys).drop (xs.length + 1) = ys := by
  have : xs ++ a :: ys = (xs ++ [a]) ++ ys := by simp
  rw [this]
  have hlen : (xs ++ [a]).length = xs.length + 1 := by simp
  rw [← hlen, List.drop_left]

/-- A path without slashes is its own basename. -/
theorem basename_no_slash (p : Str) (h : '/' ∉ p) : basename p = p := by
  unfold basename
  rw [(rfind_eq_none '/' p).mpr h]

/-- Basename of `dir ++ '/' :: rest` when `rest` has no slash. -/
theorem basename_append (d rest : Str) (h : '/' ∉ rest) :
    basename (d ++ '/' :: rest) = rest := by
  unfold basename
  rw [rfind_append_cons '/' d rest h]
  exact drop_append_cons d rest '/'

/-- Suffix of a name of the form `stem ++ '.' :: ext` where the stem is
nonempty and slash-free and the extension tail is nonempty and
dot/slash-free: the suffix is `'.' :: ext`. -/
theorem pathSuffix_stem_ext (stem ext : Str) (hstem : stem ≠ [])
    (hs : '/' ∉ stem) (hd : '.' ∉ ext) (hsl : '/' ∉ ext) (hne : ext ≠ []) :
    pathSuffix (stem ++ '.' :: ext) = '.' :: ext := by
  unfold pathSuffix
  have hnos : '/' ∉ stem ++ '.' :: ext := by
    simp only [List.mem_append, List.mem_cons]
    rintro (h1 | h2 | h3)
    · exact hs h1
    · simp at h2
    · exact hsl h3
  rw [basename_no_slash _ hnos, rfind_append_cons '.' stem ext hd]
  have h0 : 0 < stem.length := List.length_pos.mpr hstem
  have h1 : stem.length + 1 < (stem ++ '.' :: ext).length := by
    simp only [List.length_append, List.length_cons]
    have : 0 < ext.length := List.length_pos.mpr hne
    omega
  show (if 0 < stem.length ∧ stem.length + 1 < (stem ++ '.' :: ext).length
        then (stem ++ '.' :: ext).drop stem.length else []) = '.' :: ext
  rw [if_pos ⟨h0, h1⟩]
  exact List.drop_left stem ('.' :: ext)

/-- A dot-file name `'.' :: e` (no further dots or slashes) has empty
suffix: the lone dot is at index 0 of the name. -/
theorem pathSuffix_dotfile (d e : Str) (hd : '.' ∉ e) (hsl : '/' ∉ e) :
    pathSuffix (d ++ '/' :: '.' :: e) = [] := by
  unfold pathSuffix
  have hnos : '/' ∉ ('.' :: e) := by
    simp only [List.mem_cons]
    rintro (h1 | h2)
    · simp at h1
    · exact hsl h2
  rw [basename_append d _ hnos]
  have h0 : rfind '.' ('.' :: e) = some 0 := by
    have := rfind_append_cons '.' [] e hd
    simpa using this
  rw [h0]
  show (if 0 < 0 ∧ 0 + 1 < ('.' :: e).length then ('.' :: e).drop 0 else []) = []
  simp

/-! ### Archive destination (`upload_file` lines 72-81) -/

/-- `os.path.join(a, b)` for POSIX paths. -/
def joinPath (a b : Str) : Str :=
  if b.head? = some '/' then b
  else if a = [] ∨ a.getLast? = some '/' then a ++ b
  else a ++ '/' :: b

/-- Python `str.rfind`: index of the last occurrence, `-1` when absent. -/
def rfindIdx (c : Char) (l : Str) : Int :=
  match rfind c l with
  | none => -1
  | some i => (i : Int)

/-- `os.path.splitext`: split at the last dot, provided it lies after the
last separator and the characters between them are not all dots (leading
dots of a component never start an extension). -/
def splitext (p : Str) : Str × Str :=
  let sepIdx := rfindIdx '/' p
  let dotIdx := rfindIdx '.' p
  if sepIdx < dotIdx ∧
      ((p.drop (sepIdx + 1).toNat).take (dotIdx - sepIdx - 1).toNat).any
        (fun ch => ch != '.')
  then (p.take dotIdx.toNat, p.drop dotIdx.toNat)
  else (p, [])

/-- One collision candidate: the f-string `base ++ "_" ++ str(counter) ++ ext`. -/
def cand (base ext : Str) (k : Nat) : Str :=
  base ++ ('_' :: (Nat.repr k).data) ++ ext

/-- The collision-probe loop `while os.path.exists(f"..."): counter += 1`,
with explicit fuel.  The Python loop terminates because the filesystem is
finite; `archive_destination` supplies provably sufficient fuel. -/
def probeFrom (ex : List Str) (base ext : Str) : Nat → Nat → Option Nat
  | 0, _ => none
  | fuel + 1, k =>
    if cand base ext k ∈ ex then probeFrom ex base ext fuel (k + 1) else some k

/-- Destination computation of `upload_file`: `os.path.join` the archive
directory and the file name; if that path exists, probe `base_1.ext`,
`base_2.ext`, ... until a free one is found.  `ex` is the list of paths
that exist on the filesystem. -/
def archive_destination (ex : List Str) (dir name : Str) : Str :=
  if joinPath dir name ∈ ex then
    match probeFrom ex (splitext (joinPath dir name)).1
        (splitext (joinPath dir name)).2 (ex.length + 1) 1 with
    | some k =>
      cand (splitext (joinPath dir name)).1 (splitext (joinPath dir name)).2 k
    | none => joinPath dir name
  else joinPath dir name

/-! ### Injectivity of decimal rendering

The probe loop terminates because candidate names for distinct counters
are distinct strings; this needs injectivity of `Nat.repr`, proved here
by relating core's `Nat.toDigits` to Mathlib's `Nat.digits`. -/

theorem digitChar_inj_lt10 :
    ∀ d < 10, ∀ e < 10, Nat.digitChar d = Nat.digitChar e → d = e := by decide

theorem map_digitChar_inj :
    ∀ l₁ l₂ : List Nat, (∀ x ∈ l₁, x < 10) → (∀ x ∈ l₂, x < 10) →
      l₁.map Nat.digitChar = l₂.map Nat.digitChar → l₁ = l₂ := by
  intro l₁
  induction l₁ with
  | nil =>
    intro l₂ _ _ h
    cases l₂ with
    | nil => rfl
    | cons b bs => simp at h
  | cons a as ih =>
    intro l₂ h1 h2 h
    cases l₂ with
    | nil => simp at h
    | cons b bs =>
      simp only [List.map_cons, List.cons.injEq] at h
      have ha : a < 10 := h1 a (List.mem_cons_self _ _)
      have hb : b < 10 := h2 b (List.mem_cons_self _ _)
      have hab : a = b := digitChar_inj_lt10 a ha b hb h.1
      subst hab
      have htl := ih bs (fun x hx => h1 x (List.mem_cons_of_mem _ hx))
        (fun x hx => h2 x (List.mem_cons_of_mem _ hx)) h.2
      rw [htl]

theorem toDigitsCore_eq_digits :
    ∀ (f n : Nat) (ds : List Char), n ≠ 0 → n < f →
      Nat.toDigitsCore 10 f n ds
        = ((Nat.digits 10 n).map Nat.digitChar).reverse ++ ds := by
  intro f
  induction f with
  | zero => intro n ds hn hf; omega
  | succ f ih =>
    intro n ds hn hf
    have hdig : Nat.digits 10 n = n % 10 :: Nat.digits 10 (n / 10) :=
      Nat.digits_def' (by norm_num) (Nat.pos_of_ne_zero hn)
    show (if n / 10 = 0 then Nat.digitChar (n % 10) :: ds
          else Nat.toDigitsCore 10 f (n / 10) (Nat.digitChar (n % 10) :: ds))
        = ((Nat.digits 10 n).map Nat.digitChar).reverse ++ ds
    by_cases h0 : n / 10 = 0
    · rw [if_pos h0, hdig, h0]
      simp
    · rw [if_neg h0]
      have hlt : n / 10 < f := by
        have : n / 10 < n := Nat.div_lt_self (Nat.pos_of_ne_zero hn) (by norm_num)
        omega
      rw [ih (n / 10) (Nat.digitChar (n % 10) :: ds) h0 hlt, hdig]
      simp

theorem toDigits_ten_eq (n : Nat) (hn : n ≠ 0) :
    Nat.toDigits 10 n = ((Nat.digits 10 n).map Nat.digitChar).reverse := by
  have h := toDigitsCore_eq_digits (n + 1) n [] hn (Nat.lt_succ_self n)
  simpa [Nat.toDigits] using h

theorem toDigits_ten_ne_zero_str (n : Nat) (hn : n ≠ 0)
    (h : Nat.toDigits 10 n = ['0']) : False := by
  rw [toDigits_ten_eq n hn] at h
  have hlen : (Nat.digits 10 n).length = 1 := by
    have hl := congrArg List.length h
    simpa using hl
  obtain ⟨d, hd⟩ : ∃ d, Nat.digits 10 n = [d] := by
    cases hds : Nat.digits 10 n with
    | nil => rw [hds] at hlen; simp at hlen
    | cons x xs =>
      rw [hds] at hlen
      simp only [List.length_cons] at hlen
      have hxs : xs = [] := List.length_eq_zero.mp (by omega)
      exact ⟨x, by rw [hxs]⟩
  rw [hd] at h
  have hdc : Nat.digitChar d = '0' := by simpa using h
  have hdlt : d < 10 :=
    Nat.digits_lt_base (by norm_num) (by rw [hd]; exact List.mem_singleton_self d)
  have hd0 : d = 0 := digitChar_inj_lt10 d hdlt 0 (by norm_num) (by rw [hdc]; rfl)
  have hod := Nat.ofDigits_digits 10 n
  rw [hd, hd0] at hod
  simp [Nat.ofDigits_cons, Nat.ofDigits_nil] at hod
  exact hn hod.symm

theorem toDigits_ten_inj (m n : Nat) (h : Nat.toDigits 10 m = Nat.toDigits 10 n) :
    m = n := by
  by_cases hm : m = 0 <;> by_cases hn : n = 0
  · rw [hm, hn]
  · subst hm
    exact absurd (h.symm : Nat.toDigits 10 n = ['0'])
      (fun hh => toDigits_ten_ne_zero_str n hn hh)
  · subst hn
    exact absurd (h : Nat.toDigits 10 m = ['0'])
      (fun hh => toDigits_ten_ne_zero_str m hm hh)
  · rw [toDigits_ten_eq m hm, toDigits_ten_eq n hn] at h
    have hmap := List.reverse_injective h
    have hd := map_digitChar_inj (Nat.digits 10 m) (Nat.digits 10 n)
      (fun x hx => Nat.digits_lt_base (by norm_num) hx)
      (fun x hx => Nat.digits_lt_base (by norm_num) hx) hmap
    calc m = Nat.ofDigits 10 (Nat.digits 10 m) := (Nat.ofDigits_digits 10 m).symm
    _ = Nat.ofDigits 10 (Nat.digits 10 n) := by rw [hd]
    _ = n := Nat.ofDigits_digits 10 n

theorem repr_data_inj (m n : Nat) (h : (Nat.repr m).data = (Nat.repr n).data) :
    m = n :=
  toDigits_ten_inj m n h

theorem cand_injective (base ext : Str) : Function.Injective (cand base ext) := by
  intro k₁ k₂ h
  unfold cand at h
  have h1 := List.append_cancel_right h
  have h2 := List.append_cancel_left h1
  have h3 : (Nat.repr k₁).data = (Nat.repr k₂).data := by
    injection h2
  exact repr_data_inj k₁ k₂ h3

/-! ### Probe loop correctness -/

theorem probeFrom_some (ex : List Str) (b e : Str) :
    ∀ fuel k j : Nat, probeFrom ex b e fuel k = some j →
      k ≤ j ∧ cand b e j ∉ ex ∧ ∀ i, k ≤ i → i < j → cand b e i ∈ ex := by
  intro fuel
  induction fuel with
  | zero =>
    intro k j h
    exact absurd h (by simp [probeFrom])
  | succ fuel ih =>
    intro k j h
    have hunf : probeFrom ex b e (fuel + 1) k
        = if cand b e k ∈ ex then probeFrom ex b e fuel (k + 1) else some k := rfl
    rw [hunf] at h
    by_cases hc : cand b e k ∈ ex
    · rw [if_pos hc] at h
      obtain ⟨h1, h2, h3⟩ := ih (k + 1) j h
      refine ⟨by omega, h2, ?_⟩
      intro i hi1 hi2
      by_cases hik : i = k
      · subst hik; exact hc
      · exact h3 i (by omega) hi2
    · rw [if_neg hc] at h
      have hkj : k = j := by injection h
      subst hkj
      exact ⟨le_refl k, hc, fun i hi1 hi2 => absurd hi2 (by omega)⟩

theorem probeFrom_none (ex : List Str) (b e : Str) :
    ∀ fuel k : Nat, probeFrom ex b e fuel k = none →
      ∀ i, k ≤ i → i < k + fuel → cand b e i ∈ ex := by
  intro fuel
  induction fuel with
  | zero => intro k _ i _ h2; omega
  | succ fuel ih =>
    intro k h i h1 h2
    have hunf : probeFrom ex b e (fuel + 1) k
        = if cand b e k ∈ ex then probeFrom ex b e fuel (k + 1) else some k := rfl
    rw [hunf] at h
    by_cases hc : cand b e k ∈ ex
    · rw [if_pos hc] at h
      by_cases hik : i = k
      · subst hik; exact hc
      · exact ih (k + 1) h i (by omega) (by omega)
    · rw [if_neg hc] at h
      exact Option.noConfusion h

/-- The probe never exhausts its fuel: candidates for distinct counters
are distinct strings, and the filesystem list is too short to contain
`length + 1` of them. -/
theorem probeFrom_isSome (ex : List Str) (b e : Str) :
    probeFrom ex b e (ex.length + 1) 1 ≠ none := by
  intro hnone
  have hall := probeFrom_none ex b e (ex.length + 1) 1 hnone
  have hsub : (Finset.Icc 1 (ex.length + 1)).image (cand b e) ⊆ ex.toFinset := by
    intro x hx
    simp only [Finset.mem_image, Finset.mem_Icc] at hx
    obtain ⟨i, ⟨hi1, hi2⟩, rfl⟩ := hx
    rw [List.mem_toFinset]
    exact hall i hi1 (by omega)
  have hcard := Finset.card_le_card hsub
  have himg : ((Finset.Icc 1 (ex.length + 1)).image (cand b e)).card
      = ex.length + 1 := by
    rw [Finset.card_image_of_injective _ (cand_injective b e)]
    simp
  have hle : ex.toFinset.card ≤ ex.length := ex.toFinset_card_le
  omega

/-- C3: with no collision the archive destination is `dir/name`
unchanged; with a collision it is the first free candidate
`base_1.ext`, `base_2.ext`, ... -/
theorem archive_destination_first_free (ex : List Str) (dir name : Str) :
    (joinPath dir name ∉ ex → archive_destination ex dir name = joinPath dir name) ∧
    (joinPath dir name ∈ ex →
      ∃ k, 1 ≤ k ∧
        archive_destination ex dir name
          = cand (splitext (joinPath dir name)).1 (splitext (joinPath dir name)).2 k ∧
        cand (splitext (joinPath dir name)).1 (splitext (joinPath dir name)).2 k ∉ ex ∧
        ∀ j, 1 ≤ j → j < k →
          cand (splitext (joinPath dir name)).1 (splitext (joinPath dir name)).2 j ∈ ex) := by
  constructor
  · intro h
    unfold archive_destination
    rw [if_neg h]
  · intro h
    unfold archive_destination
    rw [if_pos h]
    cases hp : probeFrom ex (splitext (joinPath dir name)).1
        (splitext (joinPath dir name)).2 (ex.length + 1) 1 with
    | none => exact absurd hp (probeFrom_isSome ex _ _)
    | some k =>
      obtain ⟨h1, h2, h3⟩ := probeFrom_some ex _ _ _ _ _ hp
      exact ⟨k, h1, rfl, h2, h3⟩

/-- Witness for C3: archive directory `d` already holds `a.jpg` and
`a_1.jpg`, so the computed destination is the first free candidate. -/
theorem archive_destination_first_free_witness :
    ∃ k, 1 ≤ k ∧
      archive_destination [str "d/a.jpg", str "d/a_1.jpg"] (str "d") (str "a.jpg")
        = cand (splitext (joinPath (str "d") (str "a.jpg"))).1
            (splitext (joinPath (str "d") (str "a.jpg"))).2 k ∧
      cand (splitext (joinPath (str "d") (str "a.jpg"))).1
          (splitext (joinPath (str "d") (str "a.jpg"))).2 k
        ∉ [str "d/a.jpg", str "d/a_1.jpg"] ∧
      ∀ j, 1 ≤ j → j < k →
        cand (splitext (joinPath (str "d") (str "a.jpg"))).1
            (splitext (joinPath (str "d") (str "a.jpg"))).2 j
          ∈ [str "d/a.jpg", str "d/a_1.jpg"] :=
  (archive_destination_first_free [str "d/a.jpg", str "d/a_1.jpg"]
    (str "d") (str "a.jpg")).2 (by decide)

/-! ### The upload pipeline (`ImageUploader`) -/

/-- Outcome of one run of `upload_file`. -/
inductive Outcome
  | missing
  | moved (dest : Str)
  | failed (err : Str)
  | errored (msg : Str)
  deriving DecidableEq

/-- External behaviour consumed by one `upload_file` run: invoking the
curl subprocess either raises (`curlError = some msg`) or completes with
`returncode` and `stderr`; `shutil.move`, if reached, either succeeds or
raises (`moveError = some msg`). -/
structure Env where
  curlError : Option Str
  returncode : Int
  stderr : Str
  moveError : Option Str
  deriving DecidableEq

/-- Mutable state: the paths existing on the filesystem and the
`processing_files` set. -/
structure St where
  files : List Str
  processing : Finset Str
  deriving DecidableEq

/-- Result of one upload attempt as classified by `upload_file`
(`if result.returncode == 0: ... else: ...`). -/
inductive UploadResult
  | Success
  | Failure (reason : Str)
  deriving DecidableEq

/-- Classification of the completed curl subprocess. -/
def run_upload (returncode : Int) (stderr : Str) : UploadResult :=
  if returncode = 0 then .Success else .Failure stderr

def msgMissing (fp : Str) : Str := str "File no longer exists: " ++ fp

def msgSuccess (name : Str) : Str := str "Successfully uploaded and moved: " ++ name

def msgFailed (fp : Str) : Str := str "Failed to upload: " ++ fp

def msgStderr (e : Str) : Str := str "Error: " ++ e

def msgException (fp e : Str) : Str := str "Error processing " ++ fp ++ str ": " ++ e

/-- Python `set.remove`: removes the element, raising `KeyError` when the
element is absent (`set.discard` would be the silent variant). -/
def pySetRemove (s : Finset Str) (x : Str) : Except Str (Finset Str) :=
  if x ∈ s then .ok (s.erase x) else .error (str "KeyError")

structure BodyOut where
  files : List Str
  log : List Str
  outcome : Outcome
  curlInvoked : Bool
  deriving DecidableEq

/-- The `try:` body of `upload_file` with its `except Exception` clause
folded in: existence re-check, curl invocation, result classification,
archive move on success, logging on failure, catch-and-log for any
raised exception. -/
def uploadBody (env : Env) (uploaded_folder : Str) (files : List Str)
    (file_path : Str) : BodyOut :=
  if file_path ∉ files then
    ⟨files, [msgMissing file_path], .missing, false⟩
  else
    match env.curlError with
    | some e => ⟨files, [msgException file_path e], .errored e, true⟩
    | none =>
      match run_upload env.returncode env.stderr with
      | .Success =>
        match env.moveError with
        | some e => ⟨files, [msgException file_path e], .errored e, true⟩
        | none =>
          ⟨archive_destination files uploaded_folder (basename file_path)
              :: files.erase file_path,
            [msgSuccess (basename file_path)],
            .moved (archive_destination files uploaded_folder (basename file_path)),
            true⟩
      | .Failure e => ⟨files, [msgFailed file_path, msgStderr e], .failed e, true⟩

structure RunResult where
  st : St
  log : List Str
  outcome : Outcome
  curlInvoked : Bool
  deriving DecidableEq

/-- `upload_file`: the `try` body, then
`finally: self.processing_files.remove(file_path)`.  A `KeyError` raised
by the `finally` clause propagates to the caller. -/
def upload_file (env : Env) (uploaded_folder : Str) (s : St) (file_path : Str) :
    Except Str RunResult :=
  match pySetRemove s.processing file_path with
  | .ok proc =>
    .ok ⟨⟨(uploadBody env uploaded_folder s.files file_path).files, proc⟩,
      (uploadBody env uploaded_folder s.files file_path).log,
      (uploadBody env uploaded_folder s.files file_path).outcome,
      (uploadBody env uploaded_folder s.files file_path).curlInvoked⟩
  | .error e => .error e

structure Event where
  is_directory : Bool
  src_path : Str
  deriving DecidableEq

structure EventResult where
  st : St
  log : List Str
  reachedUpload : Bool
  outcome : Option Outcome
  curlInvoked : Bool
  deriving DecidableEq

/-- `on_created`: ignore directories, filter by extension, dedupe via
`processing_files`, then (after the 30-second `time.sleep`, which does
not affect the state model) run `upload_file`. -/
def on_created (env : Env) (uploaded_folder : Str) (s : St) (event : Event) :
    Except Str EventResult :=
  if event.is_directory = false then
    if isImageFile event.src_path then
      if event.src_path ∉ s.processing then
        match upload_file env uploaded_folder
            ⟨s.files, insert event.src_path s.processing⟩ event.src_path with
        | .ok r => .ok ⟨r.st, r.log, true, some r.outcome, r.curlInvoked⟩
        | .error e => .error e
      else .ok ⟨s, [], false, none, false⟩
    else .ok ⟨s, [], false, none, false⟩
  else .ok ⟨s, [], false, none, false⟩

/-! ### Helper equations for the pipeline -/

theorem upload_file_releases (env : Env) (uf : Str) (s : St) (fp : Str)
    (h : fp ∈ s.processing) :
    upload_file env uf s fp
      = .ok ⟨⟨(uploadBody env uf s.files fp).files, s.processing.erase fp⟩,
          (uploadBody env uf s.files fp).log,
          (uploadBody env uf s.files fp).outcome,
          (uploadBody env uf s.files fp).curlInvoked⟩ := by
  unfold upload_file pySetRemove
  rw [if_pos h]

theorem uploadBody_missing (env : Env) (uf : Str) (files : List Str) (fp : Str)
    (hf : fp ∉ files) :
    uploadBody env uf files fp = ⟨files, [msgMissing fp], .missing, false⟩ := by
  unfold uploadBody
  rw [if_pos hf]

theorem uploadBody_failed (env : Env) (uf : Str) (files : List Str) (fp : Str)
    (hc : env.curlError = none) (hrc : env.returncode ≠ 0) (hf : fp ∈ files) :
    uploadBody env uf files fp
      = ⟨files, [msgFailed fp, msgStderr env.stderr], .failed env.stderr, true⟩ := by
  unfold uploadBody run_upload
  rw [if_neg (not_not_intro hf), hc, if_neg hrc]

/-! ### Claim theorems -/

/-- C1: for every creation event that reaches the processing routine
(passes the directory check, the extension filter, and the dedup check),
whatever the environment does — upload success, transport failure,
vanished file, or an exception from the move or the subprocess call —
`on_created` returns normally and the path is no longer in the
in-flight set, so a later creation event for it can be reprocessed. -/
theorem c1_inflight_released (env : Env) (uf : Str) (s : St) (ev : Event)
    (hdir : ev.is_directory = false) (himg : isImageFile ev.src_path = true)
    (hnew : ev.src_path ∉ s.processing) :
    ∃ r : EventResult, on_created env uf s ev = .ok r ∧
      ev.src_path ∉ r.st.processing := by
  have hmem : ev.src_path ∈ insert ev.src_path s.processing :=
    Finset.mem_insert_self _ _
  have hup := upload_file_releases env uf
    ⟨s.files, insert ev.src_path s.processing⟩ ev.src_path hmem
  unfold on_created
  rw [if_pos hdir, if_pos himg, if_pos hnew, hup]
  exact ⟨_, rfl, Finset.not_mem_erase ev.src_path (insert ev.src_path s.processing)⟩

/-- Witness for C1: a fresh `a.jpg` creation event is processed and the
path is released. -/
theorem c1_inflight_released_witness :
    ∃ r : EventResult,
      on_created ⟨none, 0, str "", none⟩ (str "up")
          ⟨[str "/w/a.jpg"], ∅⟩ ⟨false, str "/w/a.jpg"⟩ = .ok r ∧
      str "/w/a.jpg" ∉ r.st.processing :=
  c1_inflight_released ⟨none, 0, str "", none⟩ (str "up")
    ⟨[str "/w/a.jpg"], ∅⟩ ⟨false, str "/w/a.jpg"⟩ rfl (by decide) (by decide)

/-- C2: the filename filter accepts a path exactly when its extension
(the suffix of the final component, in the `pathlib` sense), lowercased,
is `.jpg`, `.jpeg` or `.png`; for a path built from a stem and an
explicit dot-extension, acceptance depends only on the lowercased
extension, hence holds in any case combination. -/
theorem c2_filter_characterisation :
    (∀ p : Str, isImageFile p = true ↔
      (lower (pathSuffix p) = str ".jpg" ∨ lower (pathSuffix p) = str ".jpeg" ∨
        lower (pathSuffix p) = str ".png")) ∧
    (∀ stem ext : Str, stem ≠ [] → '/' ∉ stem → '.' ∉ ext → '/' ∉ ext → ext ≠ [] →
      (isImageFile (stem ++ '.' :: ext) = true ↔
        (lower ('.' :: ext) = str ".jpg" ∨ lower ('.' :: ext) = str ".jpeg" ∨
          lower ('.' :: ext) = str ".png"))) := by
  have hiff : ∀ p : Str, isImageFile p = true ↔
      (lower (pathSuffix p) = str ".jpg" ∨ lower (pathSuffix p) = str ".jpeg" ∨
        lower (pathSuffix p) = str ".png") := by
    intro p
    unfold isImageFile allowedExts
    simp [List.mem_cons]
  refine ⟨hiff, ?_⟩
  intro stem ext h1 h2 h3 h4 h5
  rw [hiff, pathSuffix_stem_ext stem ext h1 h2 h3 h4 h5]

/-- Witness for C2: `photo.JpG` is accepted (mixed case). -/
theorem c2_filter_characterisation_witness :
    isImageFile (str "photo" ++ '.' :: str "JpG") = true :=
  (c2_filter_characterisation.2 (str "photo") (str "JpG")
    (by decide) (by decide) (by decide) (by decide) (by decide)).mpr (by decide)

/-- C4: a duplicate creation event for a path already in the in-flight
set is discarded: no state change, no log output, no upload attempt. -/
theorem c4_duplicate_discarded (env : Env) (uf : Str) (s : St) (ev : Event)
    (hdup : ev.src_path ∈ s.processing) :
    on_created env uf s ev = .ok ⟨s, [], false, none, false⟩ := by
  unfold on_created
  by_cases hdir : ev.is_directory = false
  · rw [if_pos hdir]
    by_cases himg : isImageFile ev.src_path
    · rw [if_pos himg, if_neg (not_not_intro hdup)]
    · rw [if_neg himg]
  · rw [if_neg hdir]

/-- Witness for C4: a second event for an in-flight `a.jpg` is a no-op. -/
theorem c4_duplicate_discarded_witness :
    on_created ⟨none, 0, str "", none⟩ (str "up")
        ⟨[str "/w/a.jpg"], {str "/w/a.jpg"}⟩ ⟨false, str "/w/a.jpg"⟩
      = .ok ⟨⟨[str "/w/a.jpg"], {str "/w/a.jpg"}⟩, [], false, none, false⟩ :=
  c4_duplicate_discarded ⟨none, 0, str "", none⟩ (str "up")
    ⟨[str "/w/a.jpg"], {str "/w/a.jpg"}⟩ ⟨false, str "/w/a.jpg"⟩ (by decide)

/-- C5: when curl exits nonzero the filesystem is unchanged (the file
stays at its original path, nothing is moved, no retry), only the path
and the stderr text are logged, and the in-flight entry is released. -/
theorem c5_failure_leaves_file (env : Env) (uf : Str) (s : St) (fp : Str)
    (hc : env.curlError = none) (hrc : env.returncode ≠ 0)
    (hf : fp ∈ s.files) (hp : fp ∈ s.processing) :
    upload_file env uf s fp
      = .ok ⟨⟨s.files, s.processing.erase fp⟩,
          [msgFailed fp, msgStderr env.stderr], .failed env.stderr, true⟩ := by
  rw [upload_file_releases env uf s fp hp, uploadBody_failed env uf s.files fp hc hrc hf]

/-- Witness for C5: curl exit code 1 leaves `a.jpg` in place. -/
theorem c5_failure_leaves_file_witness :
    upload_file ⟨none, 1, str "boom", none⟩ (str "up")
        ⟨[str "/w/a.jpg"], {str "/w/a.jpg"}⟩ (str "/w/a.jpg")
      = .ok ⟨⟨[str "/w/a.jpg"], ({str "/w/a.jpg"} : Finset Str).erase (str "/w/a.jpg")⟩,
          [msgFailed (str "/w/a.jpg"), msgStderr (str "boom")],
          .failed (str "boom"), true⟩ :=
  c5_failure_leaves_file ⟨none, 1, str "boom", none⟩ (str "up")
    ⟨[str "/w/a.jpg"], {str "/w/a.jpg"}⟩ (str "/w/a.jpg")
    rfl (by decide) (by decide) (by decide)

/-- C6: if the file no longer exists when the upload phase begins, no
upload is attempted, the absence is logged, and the in-flight entry is
still released. -/
theorem c6_vanished_no_upload (env : Env) (uf : Str) (s : St) (fp : Str)
    (hf : fp ∉ s.files) (hp : fp ∈ s.processing) :
    upload_file env uf s fp
      = .ok ⟨⟨s.files, s.processing.erase fp⟩, [msgMissing fp], .missing, false⟩ := by
  rw [upload_file_releases env uf s fp hp, uploadBody_missing env uf s.files fp hf]

/-- Witness for C6: a vanished `a.jpg` is logged and released, curl is
never invoked. -/
theorem c6_vanished_no_upload_witness :
    upload_file ⟨none, 0, str "", none⟩ (str "up")
        ⟨[], {str "/w/a.jpg"}⟩ (str "/w/a.jpg")
      = .ok ⟨⟨[], ({str "/w/a.jpg"} : Finset Str).erase (str "/w/a.jpg")⟩,
          [msgMissing (str "/w/a.jpg")], .missing, false⟩ :=
  c6_vanished_no_upload ⟨none, 0, str "", none⟩ (str "up")
    ⟨[], {str "/w/a.jpg"}⟩ (str "/w/a.jpg") (by decide) (by decide)

/-- C7: the result classification is `Success` exactly when the curl
subprocess completes with exit status zero; a nonzero status yields
`Failure` carrying the subprocess's stderr text; and on `Failure` the
filesystem is unchanged (no move to the archive). -/
theorem c7_success_iff_exit_zero :
    (∀ (rc : Int) (err : Str), run_upload rc err = .Success ↔ rc = 0) ∧
    (∀ (rc : Int) (err r : Str), run_upload rc err = .Failure r → rc ≠ 0 ∧ r = err) ∧
    (∀ (env : Env) (uf : Str) (s : St) (fp : Str) (r : Str),
      env.curlError = none → fp ∈ s.processing →
      run_upload env.returncode env.stderr = .Failure r →
      ∃ res : RunResult, upload_file env uf s fp = .ok res ∧ res.st.files = s.files) := by
  refine ⟨?_, ?_, ?_⟩
  · intro rc err
    unfold run_upload
    by_cases h : rc = 0
    · simp [h]
    · simp [h]
  · intro rc err r h
    unfold run_upload at h
    by_cases h0 : rc = 0
    · rw [if_pos h0] at h
      exact absurd h (by simp)
    · rw [if_neg h0] at h
      have he : err = r := by injection h
      exact ⟨h0, he.symm⟩
  · intro env uf s fp r hc hp hfail
    have hrc : env.returncode ≠ 0 := by
      intro h0
      unfold run_upload at hfail
      rw [if_pos h0] at hfail
      exact UploadResult.noConfusion hfail
    by_cases hf : fp ∈ s.files
    · rw [upload_file_releases env uf s fp hp, uploadBody_failed env uf s.files fp hc hrc hf]
      exact ⟨_, rfl, rfl⟩
    · rw [upload_file_releases env uf s fp hp, uploadBody_missing env uf s.files fp hf]
      exact ⟨_, rfl, rfl⟩

/-- Witness for C7: exit code 7 is classified as a failure and the
filesystem is untouched. -/
theorem c7_success_iff_exit_zero_witness :
    ∃ res : RunResult,
      upload_file ⟨none, 7, str "err", none⟩ (str "up")
          ⟨[str "/w/a.jpg"], {str "/w/a.jpg"}⟩ (str "/w/a.jpg") = .ok res ∧
      res.st.files = [str "/w/a.jpg"] :=
  c7_success_iff_exit_zero.2.2 ⟨none, 7, str "err", none⟩ (str "up")
    ⟨[str "/w/a.jpg"], {str "/w/a.jpg"}⟩ (str "/w/a.jpg") (str "err")
    rfl (by decide) (by decide)

/-- C8 counterexample: releasing a path that is not in the set is not a
no-op — Python `set.remove` raises `KeyError` on an absent element. -/
theorem c8_release_raises_counterexample :
    pySetRemove (∅ : Finset Str) (str "photo.jpg") = .error (str "KeyError") := by
  unfold pySetRemove
  rw [if_neg (Finset.not_mem_empty (str "photo.jpg"))]

/-- C8 amended: releasing a path that is in the set removes it; releasing
an absent path raises `KeyError` instead of being a no-op (in the
program, release is only reached after a successful acquire, so the
error path is never exercised by `upload_file`'s caller). -/
theorem c8_release_amended (s : Finset Str) (x : Str) :
    (x ∈ s → pySetRemove s x = .ok (s.erase x)) ∧
    (x ∉ s → pySetRemove s x = .error (str "KeyError")) := by
  constructor
  · intro h
    unfold pySetRemove
    rw [if_pos h]
  · intro h
    unfold pySetRemove
    rw [if_neg h]

/-- Witness for C8 (amended): removing a present element succeeds. -/
theorem c8_release_amended_witness :
    pySetRemove {str "a.jpg"} (str "a.jpg")
      = .ok (({str "a.jpg"} : Finset Str).erase (str "a.jpg")) :=
  (c8_release_amended {str "a.jpg"} (str "a.jpg")).1 (by decide)

/-- C10: a creation event for a file whose name is a lone dot followed by
an extension (e.g. `.jpg`) has empty computed suffix, fails the filter,
and is never added to the in-flight set — no upload is attempted. -/
theorem c10_dotfile_not_processed (d e : Str) (env : Env) (uf : Str) (s : St)
    (hd : '.' ∉ e) (hsl : '/' ∉ e) :
    pathSuffix (d ++ '/' :: '.' :: e) = [] ∧
    isImageFile (d ++ '/' :: '.' :: e) = false ∧
    on_created env uf s ⟨false, d ++ '/' :: '.' :: e⟩
      = .ok ⟨s, [], false, none, false⟩ := by
  have hsuf := pathSuffix_dotfile d e hd hsl
  have himg : isImageFile (d ++ '/' :: '.' :: e) = false := by
    unfold isImageFile
    rw [hsuf]
    rfl
  refine ⟨hsuf, himg, ?_⟩
  unfold on_created
  rw [if_pos (show (Event.mk false (d ++ '/' :: '.' :: e)).is_directory = false from rfl)]
  rw [if_neg (show ¬ isImageFile (Event.mk false (d ++ '/' :: '.' :: e)).src_path = true by
    simp [himg])]

/-- Witness for C10: a file literally named `.jpg` in the watch folder is
not processed. -/
theorem c10_dotfile_not_processed_witness :
    pathSuffix (str "/watch" ++ '/' :: '.' :: str "jpg") = [] ∧
    isImageFile (str "/watch" ++ '/' :: '.' :: str "jpg") = false ∧
    on_created ⟨none, 0, str "", none⟩ (str "up") ⟨[], ∅⟩
        ⟨false, str "/watch" ++ '/' :: '.' :: str "jpg"⟩
      = .ok ⟨⟨[], ∅⟩, [], false, none, false⟩ :=
  c10_dotfile_not_processed (str "/watch") (str "jpg")
    ⟨none, 0, str "", none⟩ (str "up") ⟨[], ∅⟩ (by decide) (by decide)

end Monitor
